import Mathlib

/-!
Verification of the kube HTTP handler of the supergiant control plane
(`pkg/kube/handler.go`), shallowly embedded in Lean 4.

External collaborators (storage, cloud accounts, credential filling, the
node provisioner, the task engine) are modelled by their results, passed
in as explicit environment values; the handler control flow itself is
translated line by line from the Go source.
-/

namespace SupergiantKube

/-- The part of `steps.Config` the handler reads and writes: the target
cluster name, the cloud-account name, and (for node-scoped workflows)
the node identity (`config.Node.Name`).  Credentials filled in by
`util.FillCloudAccountCredentials` are opaque to the handler and modelled
only by that call's error result. -/
structure Config where
  clusterName : String
  cloudAccountName : String
  nodeName : String
deriving DecidableEq, Repr

/-- The part of `workflows.Task` the handler reads: its identity and its
run configuration.  `Config` is a pointer in Go (`task.Config` may be nil),
hence `Option`. -/
structure Task where
  id : String
  config : Option Config
deriving DecidableEq, Repr

/-- One raw record under the task namespace of the store, as returned by
`repo.GetAll`: either it decodes (`json.Unmarshal`) to a task, or it is
corrupt and decoding fails. -/
inductive Record where
  | ok (t : Task)
  | bad (raw : String)
deriving DecidableEq, Repr

/-- The error taxonomy visible to the handler: `sgerrors.IsNotFound`
distinguishes not-found errors from everything else. -/
inductive SgError where
  | notFound
  | unknown (msg : String)
deriving DecidableEq, Repr

/-- `sgerrors.IsNotFound`. -/
def isNotFound : SgError → Bool
  | .notFound => true
  | .unknown _ => false

/-- `json.Unmarshal(v, task)` on one raw record. -/
def decodeTask : Record → Except SgError Task
  | .ok t => .ok t
  | .bad _ => .error (.unknown "unmarshal task data")

/-- The filter condition of `getKubeTasks` (handler.go:543):
`task != nil && task.Config != nil && task.Config.ClusterName == kubeName`.
A freshly allocated `task` is never nil. -/
def taskMatches (t : Task) (kubeName : String) : Bool :=
  match t.config with
  | some c => c.clusterName == kubeName
  | none => false

/-- The decoding loop of `getKubeTasks` (handler.go:535-546): decode every
record under the task namespace, fail on the first record that does not
unmarshal, and keep the tasks whose config names the queried cluster,
in store order. -/
def getKubeTasksAux (data : List Record) (kubeName : String) :
    Except SgError (List Task) :=
  match data with
  | [] => .ok []
  | r :: rest =>
    match decodeTask r with
    | .error e => .error e
    | .ok task =>
      match getKubeTasksAux rest kubeName with
      | .error e => .error e
      | .ok ts =>
        if taskMatches task kubeName then .ok (task :: ts) else .ok ts

/-- `Handler.getKubeTasks` (handler.go:528-549).  The result of
`h.repo.GetAll(ctx, workflows.Prefix)` is passed in as `getAllRes`;
`errors.Wrap` does not change which taxonomy class an error belongs to. -/
def getKubeTasks (getAllRes : Except SgError (List Record))
    (kubeName : String) : Except SgError (List Task) :=
  match getAllRes with
  | .error e => .error e
  | .ok data => getKubeTasksAux data kubeName

/-- The tasks a fully-decodable store state holds. -/
def decodedTasks (data : List Record) : List Task :=
  data.filterMap fun r =>
    match r with
    | .ok t => some t
    | .bad _ => none

lemma getKubeTasksAux_all_ok (data : List Record) (kubeName : String)
    (hdec : ∀ r ∈ data, ∃ t, r = Record.ok t) :
    getKubeTasksAux data kubeName =
      .ok ((decodedTasks data).filter (fun t => taskMatches t kubeName)) := by
  induction data with
  | nil => simp [getKubeTasksAux, decodedTasks]
  | cons r rest ih =>
    obtain ⟨t, rfl⟩ := hdec r (List.mem_cons_self r rest)
    have hrest : ∀ x ∈ rest, ∃ u, x = Record.ok u := fun x hx =>
      hdec x (List.mem_cons_of_mem _ hx)
    simp only [getKubeTasksAux, decodeTask, ih hrest, decodedTasks,
      List.filterMap_cons]
    by_cases h : taskMatches t kubeName
    · simp [h, decodedTasks, List.filter_cons]
    · simp [h, decodedTasks, List.filter_cons]

lemma mem_decodedTasks (data : List Record) (t : Task) :
    t ∈ decodedTasks data ↔ Record.ok t ∈ data := by
  simp only [decodedTasks, List.mem_filterMap]
  constructor
  · rintro ⟨r, hr, hd⟩
    cases r with
    | ok u => simp at hd; subst hd; exact hr
    | bad _ => simp at hd
  · intro h
    exact ⟨Record.ok t, h, rfl⟩

/-- C1: over a store whose task-namespace records all decode,
`getKubeTasks` returns exactly the decoded tasks whose config's
`ClusterName` equals the queried cluster name: the result is the
in-order filter of the decoded tasks, and a task is in the result
iff it is persisted and its (non-nil) config names the queried cluster. -/
theorem getKubeTasks_exactly_matching (data : List Record) (kubeName : String)
    (hdec : ∀ r ∈ data, ∃ t, r = Record.ok t) :
    getKubeTasks (.ok data) kubeName =
      .ok ((decodedTasks data).filter (fun t => taskMatches t kubeName)) ∧
    ∀ ts, getKubeTasks (.ok data) kubeName = .ok ts →
      ∀ t, t ∈ ts ↔
        (Record.ok t ∈ data ∧
          ∃ c, t.config = some c ∧ c.clusterName = kubeName) := by
  have heq := getKubeTasksAux_all_ok data kubeName hdec
  refine ⟨heq, ?_⟩
  intro ts hts t
  rw [show getKubeTasks (.ok data) kubeName = getKubeTasksAux data kubeName
    from rfl, heq] at hts
  injection hts with hts
  subst hts
  rw [List.mem_filter, mem_decodedTasks]
  constructor
  · rintro ⟨hmem, hmatch⟩
    refine ⟨hmem, ?_⟩
    unfold taskMatches at hmatch
    cases hc : t.config with
    | none => rw [hc] at hmatch; simp at hmatch
    | some c =>
      rw [hc] at hmatch
      exact ⟨c, rfl, by simpa using hmatch⟩
  · rintro ⟨hmem, c, hc, hname⟩
    exact ⟨hmem, by simp [taskMatches, hc, hname]⟩

/-- C1 witness: a store holding two tasks for cluster c1 (one of them for
another cluster, one with a nil config) evaluated concretely. -/
theorem getKubeTasks_exactly_matching_witness :
    (∀ r ∈ [Record.ok ⟨"t1", some ⟨"c1", "a", ""⟩⟩,
            Record.ok ⟨"t2", some ⟨"c2", "a", ""⟩⟩,
            Record.ok ⟨"t3", none⟩], ∃ t, r = Record.ok t) ∧
    getKubeTasks
      (.ok [Record.ok ⟨"t1", some ⟨"c1", "a", ""⟩⟩,
            Record.ok ⟨"t2", some ⟨"c2", "a", ""⟩⟩,
            Record.ok ⟨"t3", none⟩]) "c1" =
      .ok [⟨"t1", some ⟨"c1", "a", ""⟩⟩] := by
  have h : ∀ r ∈ [Record.ok ⟨"t1", some ⟨"c1", "a", ""⟩⟩,
            Record.ok ⟨"t2", some ⟨"c2", "a", ""⟩⟩,
            Record.ok ⟨"t3", none⟩], ∃ t, r = Record.ok t := by
    intro r hr
    fin_cases hr <;> exact ⟨_, rfl⟩
  refine ⟨h, ?_⟩
  have := (getKubeTasks_exactly_matching
    [Record.ok ⟨"t1", some ⟨"c1", "a", ""⟩⟩,
     Record.ok ⟨"t2", some ⟨"c2", "a", ""⟩⟩,
     Record.ok ⟨"t3", none⟩] "c1" h).1
  rw [this]
  rfl

/-- C10: one record that fails to decode makes `getKubeTasks` return an
error and no tasks at all, for every queried cluster name. -/
theorem getKubeTasks_corrupt_record_fails (data : List Record)
    (kubeName raw : String) (h : Record.bad raw ∈ data) :
    ∃ e, getKubeTasks (.ok data) kubeName = .error e := by
  show ∃ e, getKubeTasksAux data kubeName = .error e
  induction data with
  | nil => simp at h
  | cons r rest ih =>
    rcases List.mem_cons.mp h with hr | hr
    · subst hr
      exact ⟨.unknown "unmarshal task data", rfl⟩
    · obtain ⟨e, he⟩ := ih hr
      cases r with
      | bad s => exact ⟨.unknown "unmarshal task data", rfl⟩
      | ok t =>
        refine ⟨e, ?_⟩
        simp [getKubeTasksAux, decodeTask, he]

/-- C10 witness: a store with a valid task for cluster c1 plus one corrupt
record still fails to list the tasks of c1. -/
theorem getKubeTasks_corrupt_record_fails_witness :
    Record.bad "garbage" ∈
      [Record.ok ⟨"t1", some ⟨"c1", "a", ""⟩⟩, Record.bad "garbage"] ∧
    ∃ e, getKubeTasks
      (.ok [Record.ok ⟨"t1", some ⟨"c1", "a", ""⟩⟩, Record.bad "garbage"])
      "c1" = .error e := by
  constructor
  · decide
  · exact getKubeTasks_corrupt_record_fails _ "c1" "garbage" (by decide)

/-- `Handler.deleteClusterTasks` (handler.go:551-565): list the cluster's
tasks via `getKubeTasks`, then issue `repo.Delete(ctx, workflows.Prefix,
task.ID)` for each.  A failed delete is only logged (`logrus.Warnf`) and
the loop continues, so the value of interest is the list of task ids for
which a delete is issued; when `getKubeTasks` fails, no delete is issued
and the wrapped error is returned. -/
def deleteClusterTasks (getAllRes : Except SgError (List Record))
    (clusterName : String) : Except SgError (List String) :=
  match getKubeTasks getAllRes clusterName with
  | .error e => .error e
  | .ok tasks => .ok (tasks.map Task.id)

/-- C2: over a fully-decodable store whose task ids are globally unique
(spec invariant), `deleteClusterTasks` issues a delete for the id of every
task whose config references the cluster, and issues no delete for the id
of any task belonging to a different cluster (or holding no config). -/
theorem deleteClusterTasks_exact (data : List Record) (clusterName : String)
    (hdec : ∀ r ∈ data, ∃ t, r = Record.ok t)
    (huniq : ∀ t u : Task, Record.ok t ∈ data → Record.ok u ∈ data →
      t.id = u.id → t = u) :
    ∃ ids, deleteClusterTasks (.ok data) clusterName = .ok ids ∧
      ∀ t : Task, Record.ok t ∈ data →
        ((taskMatches t clusterName = true → t.id ∈ ids) ∧
         (taskMatches t clusterName = false → t.id ∉ ids)) := by
  have heq := getKubeTasksAux_all_ok data clusterName hdec
  refine ⟨((decodedTasks data).filter
    (fun t => taskMatches t clusterName)).map Task.id, ?_, ?_⟩
  · simp only [deleteClusterTasks, getKubeTasks, heq]
  · intro t hmem
    constructor
    · intro hmatch
      exact List.mem_map_of_mem Task.id
        (List.mem_filter.mpr ⟨(mem_decodedTasks data t).mpr hmem, hmatch⟩)
    · intro hmatch hid
      obtain ⟨u, hu, huid⟩ := List.mem_map.mp hid
      obtain ⟨humem, humatch⟩ := List.mem_filter.mp hu
      have : u = t :=
        huniq u t ((mem_decodedTasks data u).mp humem) hmem huid
      subst this
      rw [hmatch] at humatch
      exact Bool.false_ne_true humatch

/-- C2 witness: deleting the tasks of cluster c1 from a store holding one
c1 task and one c2 task issues a delete exactly for the c1 task. -/
theorem deleteClusterTasks_exact_witness :
    ∃ ids, deleteClusterTasks
      (.ok [Record.ok ⟨"t1", some ⟨"c1", "a", ""⟩⟩,
            Record.ok ⟨"t2", some ⟨"c2", "a", ""⟩⟩]) "c1" = .ok ids ∧
      "t1" ∈ ids ∧ "t2" ∉ ids := by
  obtain ⟨ids, hrun, hmem⟩ := deleteClusterTasks_exact
    [Record.ok ⟨"t1", some ⟨"c1", "a", ""⟩⟩,
     Record.ok ⟨"t2", some ⟨"c2", "a", ""⟩⟩] "c1"
    (by intro r hr; fin_cases hr <;> exact ⟨_, rfl⟩)
    (by intro t u ht hu hid
        fin_cases ht <;> fin_cases hu <;> simp_all)
  refine ⟨ids, hrun, ?_, ?_⟩
  · exact (hmem ⟨"t1", some ⟨"c1", "a", ""⟩⟩ (by decide)).1 (by decide)
  · exact (hmem ⟨"t2", some ⟨"c2", "a", ""⟩⟩ (by decide)).2 (by decide)

/-- The part of `model.Kube` the handler reads and writes: the cluster
name, its cloud-account name, and the key sets of the `Masters` and
`Nodes` maps (`map[string]*node.Node`; the handler only tests membership
and deletes keys, so the node values are not modelled). -/
structure Kube where
  name : String
  accountName : String
  masters : List String
  nodes : List String
deriving DecidableEq, Repr

/-- What the `deleteKube` completion goroutine does (handler.go:244-257),
as a function of the received completion signal and of the store's answer
to `h.svc.Delete`: whether the cluster-record delete is issued, and
whether `deleteClusterTasks` is run. -/
structure DeleteKubeReaction where
  clusterDeleteIssued : Bool
  tasksCleanupRun : Bool
deriving DecidableEq, Repr

/-- The `deleteKube` completion goroutine (handler.go:244-257): a non-nil
completion error returns at once; then the cluster record is deleted from
the store, and on a delete failure the error is logged and the goroutine
returns without touching the task records; only then are the cluster's
tasks deleted. -/
def deleteKubeReaction (complErr : Option String)
    (svcDeleteErr : Option String) : DeleteKubeReaction :=
  match complErr with
  | some _ => ⟨false, false⟩
  | none =>
    match svcDeleteErr with
    | some _ => ⟨true, false⟩
    | none => ⟨true, true⟩

/-- C4: in the `deleteKube` completion reaction the cluster-record delete
is issued exactly when the completion signal carries a nil error, and the
cluster's task records are cleaned up exactly when the completion error is
nil and the cluster-record delete itself succeeded. -/
theorem deleteKubeReaction_ordering (complErr svcDeleteErr : Option String) :
    ((deleteKubeReaction complErr svcDeleteErr).clusterDeleteIssued = true ↔
      complErr = none) ∧
    ((deleteKubeReaction complErr svcDeleteErr).tasksCleanupRun = true ↔
      (complErr = none ∧ svcDeleteErr = none)) := by
  cases complErr <;> cases svcDeleteErr <;> simp [deleteKubeReaction]

/-- The `deleteNode` completion goroutine (handler.go:507-523): the
completion error is only logged (`logrus.Errorf`), execution falls
through, and `delete(k.Nodes, nodeName)` plus the `h.svc.Create` re-save
run unconditionally — the node is removed from the recorded node set even
when the signal carries an error. -/
def deleteNodeReaction (complErr : Option String) (k : Kube)
    (nodeName : String) : Kube :=
  { k with nodes := k.nodes.filter (fun n => n != nodeName) }

/-- C3 counterexample input: the completion signal carries an error, yet
the reaction removes the node from the cluster's recorded node set and
leaves the re-save to run. -/
theorem deleteNodeReaction_removes_node_on_error :
    (deleteNodeReaction (some "step DeleteVM failed")
      ⟨"c1", "a", [], ["n1", "n2"]⟩ "n1").nodes = ["n2"] := by
  decide

/-- The in-memory state a `deleteNode` request leaves behind once the task
is started: the shared cluster object and the config value the task runs
against.  `t.Run(context.Background(), *config, writer)` (handler.go:504)
dereferences the pointer, so the task receives a copy of the config
value. -/
structure DeleteNodeWorld where
  kube : Kube
  runConfig : Config
deriving DecidableEq, Repr

/-- `deleteNode` building the config (handler.go:478-484) and handing its
value to `t.Run` (handler.go:504). -/
def deleteNodeStart (k : Kube) (nodeName : String) : DeleteNodeWorld :=
  { kube := k,
    runConfig :=
      { clusterName := k.name,
        cloudAccountName := k.accountName,
        nodeName := nodeName } }

/-- The completion goroutine mutates the shared kube object only; the
config value held by the running task is not written to. -/
def deleteNodeComplete (complErr : Option String) (w : DeleteNodeWorld)
    (nodeName : String) : DeleteNodeWorld :=
  { w with kube := deleteNodeReaction complErr w.kube nodeName }

/-- C7: the config a `deleteNode` task runs against is a value snapshot:
after the completion goroutine removes the node from `k.Nodes`, the task's
config is unchanged and still names the original cluster and the deleted
node, even though the node is gone from the (mutated) kube object. -/
theorem deleteNode_config_snapshot (k : Kube) (nodeName : String)
    (complErr : Option String) :
    (deleteNodeComplete complErr (deleteNodeStart k nodeName)
        nodeName).runConfig = (deleteNodeStart k nodeName).runConfig ∧
    (deleteNodeComplete complErr (deleteNodeStart k nodeName)
        nodeName).runConfig.clusterName = k.name ∧
    (deleteNodeComplete complErr (deleteNodeStart k nodeName)
        nodeName).runConfig.nodeName = nodeName ∧
    nodeName ∉ (deleteNodeComplete complErr (deleteNodeStart k nodeName)
        nodeName).kube.nodes := by
  refine ⟨rfl, rfl, rfl, ?_⟩
  intro hmem
  simp only [deleteNodeComplete, deleteNodeReaction, deleteNodeStart,
    List.mem_filter] at hmem
  exact absurd hmem.2 (by simp)

/-- `workflows.WorkflowSet`: the per-provider record of workflow kind
names the handler reads (`DeleteCluster`, `DeleteNode`). -/
structure WorkflowSet where
  deleteCluster : String
  deleteNode : String
deriving DecidableEq, Repr

/-- The zero value of `workflows.WorkflowSet`: reading a missing key of a
Go map yields it. -/
def emptyWorkflowSet : WorkflowSet := ⟨"", ""⟩

/-- `h.workflowMap` as built by `NewHandler` (handler.go:52-57): the only
entry is for DigitalOcean.  The two workflow kind names are the string
constants `workflows.DigitalOceanDeleteCluster` and
`workflows.DigitalOceanDeleteNode`; their package is outside the sampled
source, so they are modelled as distinct nonempty names. -/
def workflowMap : List (String × WorkflowSet) :=
  [("digitalocean",
    { deleteCluster := "DigitalOceanDeleteCluster",
      deleteNode := "DigitalOceanDeleteNode" })]

/-- `h.workflowMap[acc.Provider]` with Go map-read semantics: a missing
provider yields the zero-value `WorkflowSet`, never a crash. -/
def lookupWorkflowSet (m : List (String × WorkflowSet)) (provider : String) :
    WorkflowSet :=
  match m.lookup provider with
  | some ws => ws
  | none => emptyWorkflowSet

/-- Modelled from the spec: `workflows.NewTask` is outside the sampled
source.  Spec 4.2: `create(workflowKind, repository) -> Task | NotFound`
resolves the workflow kind to its registered step list, returning NotFound
if the kind is unregistered, and otherwise allocates a fresh task and
persists its initial record.  The registered kinds are the ones the
handler's workflow map can name; the zero-value empty kind is
unregistered. -/
def knownWorkflowKinds : List String :=
  ["DigitalOceanDeleteCluster", "DigitalOceanDeleteNode"]

/-- Modelled from the spec: task creation (`workflows.NewTask`), returning
NotFound for an unregistered workflow kind and a fresh task otherwise. -/
def newTask (workflowKind : String) (freshId : String) :
    Except SgError Task :=
  if knownWorkflowKinds.contains workflowKind then
    .ok { id := freshId, config := none }
  else
    .error .notFound

/-- The part of `model.CloudAccount` the handler reads. -/
structure CloudAccount where
  name : String
  provider : String
deriving DecidableEq, Repr

/-- The one response an HTTP handler run writes (the first complete
response when the code writes more than one; net/http ignores a
superfluous second WriteHeader). -/
inductive HResp where
  | badRequest (msg : String)
  | notFound
  | methodNotAllowed (msg : String)
  | internalError
  | accepted
  | acceptedWithTasks (taskIds : List String)
  | okTasks (tasks : List Task)
deriving DecidableEq, Repr

/-- The HTTP status code each response carries. -/
def HResp.statusCode : HResp → Nat
  | .badRequest _ => 400
  | .notFound => 404
  | .methodNotAllowed _ => 405
  | .internalError => 500
  | .accepted => 202
  | .acceptedWithTasks _ => 202
  | .okTasks _ => 200

/-- The store- and engine-visible effects a handler run performs: creating
(and persisting) a task, and starting `t.Run` with a config value. -/
inductive Effect where
  | createTask (id : String)
  | runTask (id : String) (cfg : Config)
deriving DecidableEq, Repr

/-- The collaborator results a `deleteKube` request sees: `h.svc.Get`,
`h.accountService.Get`, `util.FillCloudAccountCredentials`,
`h.getWriter`, and the fresh task id `NewTask` allocates. -/
structure DeleteKubeEnv where
  getKube : Except SgError Kube
  getAccount : Except SgError CloudAccount
  fillCredsErr : Option SgError
  getWriterOk : Bool
  freshTaskId : String

/-- `Handler.deleteKube` (handler.go:181-260), from request receipt to the
response write; the completion goroutine is `deleteKubeReaction`. -/
def deleteKubeHandler (env : DeleteKubeEnv) : HResp × List Effect :=
  match env.getKube with
  | .error e => (if isNotFound e then .notFound else .internalError, [])
  | .ok k =>
    match env.getAccount with
    | .error e => (if isNotFound e then .notFound else .internalError, [])
    | .ok acc =>
      match newTask (lookupWorkflowSet workflowMap acc.provider).deleteCluster
          env.freshTaskId with
      | .error e => (if isNotFound e then .notFound else .internalError, [])
      | .ok t =>
        let config : Config :=
          { clusterName := k.name,
            cloudAccountName := k.accountName,
            nodeName := "" }
        match env.fillCredsErr with
        | some e => (if isNotFound e then .notFound else .internalError,
            [Effect.createTask t.id])
        | none =>
          if env.getWriterOk then
            (.accepted, [Effect.createTask t.id, Effect.runTask t.id config])
          else
            (.internalError, [Effect.createTask t.id])

/-- The collaborator results a `deleteNode` request sees. -/
structure DeleteNodeEnv where
  getKube : Except SgError Kube
  getAccount : Except SgError CloudAccount
  fillCredsErr : Option SgError
  getWriterOk : Bool
  freshTaskId : String

/-- `Handler.deleteNode` (handler.go:426-525), from request receipt to the
response write; the completion goroutine is `deleteNodeReaction`. -/
def deleteNodeHandler (env : DeleteNodeEnv) (nodeName : String) :
    HResp × List Effect :=
  match env.getKube with
  | .error e => (if isNotFound e then .notFound else .internalError, [])
  | .ok k =>
    if k.masters.contains nodeName then
      (.methodNotAllowed "delete master node not allowed", [])
    else if !(k.nodes.contains nodeName) then
      (.notFound, [])
    else
      match env.getAccount with
      | .error e => (if isNotFound e then .notFound else .internalError, [])
      | .ok acc =>
        match newTask (lookupWorkflowSet workflowMap acc.provider).deleteNode
            env.freshTaskId with
        | .error e => (if isNotFound e then .notFound else .internalError, [])
        | .ok t =>
          let config : Config :=
            { clusterName := k.name,
              cloudAccountName := k.accountName,
              nodeName := nodeName }
          match env.fillCredsErr with
          | some e => (if isNotFound e then .notFound else .internalError,
              [Effect.createTask t.id])
          | none =>
            if env.getWriterOk then
              (.accepted,
                [Effect.createTask t.id, Effect.runTask t.id config])
            else
              (.internalError, [Effect.createTask t.id])

/-- The collaborator results an `addNode` request sees: `h.svc.Get`, the
JSON decode of the node-profile body, `h.accountService.Get`,
`util.FillCloudAccountCredentials`, and
`h.nodeProvisioner.ProvisionNodes` (which returns the created task
ids). -/
structure AddNodeEnv where
  getKube : Except SgError Kube
  decodeProfilesOk : Bool
  getAccount : Except SgError CloudAccount
  fillCredsErr : Option SgError
  provision : Except SgError (List String)

/-- `Handler.addNode` (handler.go:327-423).  The kube profile and config
construction (handler.go:364-392) only feeds the provisioner, which is a
collaborator; the handler-visible branching is: a NotFound kube is 404 and
any other `Get` error 500, a bad body 400, a NotFound account 404 and any
other account error 500, an empty master set 404, any credential error
500, a NotFound provision error 404 and any other 500, and otherwise 202
with the created task ids encoded to the client. -/
def addNodeHandler (env : AddNodeEnv) : HResp :=
  match env.getKube with
  | .error e => if isNotFound e then .notFound else .internalError
  | .ok k =>
    if !env.decodeProfilesOk then .badRequest "decode node profiles"
    else
      match env.getAccount with
      | .error e => if isNotFound e then .notFound else .internalError
      | .ok _ =>
        if k.masters.isEmpty then .notFound
        else
          match env.fillCredsErr with
          | some _ => .internalError
          | none =>
            match env.provision with
            | .error e => if isNotFound e then .notFound else .internalError
            | .ok taskIds => .acceptedWithTasks taskIds

/-- `Handler.getTasks` (handler.go:80-125): a request without a cluster
name is 400; a NotFound listing error is 404; any other listing error is
500 (the code falls through after writing it, but the 500 response is
written first and a second WriteHeader is ignored); an empty task list is
404; otherwise the task DTOs are encoded with status 200. -/
def getTasksHandler (getAllRes : Except SgError (List Record))
    (kname : Option String) : HResp :=
  match kname with
  | none => .badRequest "need name of a cluster"
  | some id =>
    match getKubeTasks getAllRes id with
    | .error e => if isNotFound e then .notFound else .internalError
    | .ok tasks =>
      if tasks.length == 0 then .notFound
      else .okTasks tasks

lemma newTask_empty_kind (freshId : String) :
    newTask "" freshId = .error .notFound := by
  have h : knownWorkflowKinds.contains "" = false := by decide
  unfold newTask
  rw [h]
  rfl

/-- C5: a `deleteKube` or `deleteNode` request whose cloud account's
provider has no entry in the workflow map does not crash: the map read
yields the zero-value workflow set, task creation for its empty kind
reports NotFound, and both handlers respond 404 Not Found. -/
theorem missing_provider_mapping_404 (envK : DeleteKubeEnv)
    (envN : DeleteNodeEnv) (k : Kube) (acc : CloudAccount)
    (nodeName : String)
    (hK1 : envK.getKube = .ok k) (hK2 : envK.getAccount = .ok acc)
    (hN1 : envN.getKube = .ok k) (hN2 : envN.getAccount = .ok acc)
    (hp : workflowMap.lookup acc.provider = none)
    (hm : k.masters.contains nodeName = false)
    (hn : k.nodes.contains nodeName = true) :
    lookupWorkflowSet workflowMap acc.provider = emptyWorkflowSet ∧
    newTask (lookupWorkflowSet workflowMap acc.provider).deleteCluster
      envK.freshTaskId = .error .notFound ∧
    newTask (lookupWorkflowSet workflowMap acc.provider).deleteNode
      envN.freshTaskId = .error .notFound ∧
    (deleteKubeHandler envK).1 = .notFound ∧
    (deleteNodeHandler envN nodeName).1 = .notFound := by
  have hlook : lookupWorkflowSet workflowMap acc.provider =
      emptyWorkflowSet := by
    simp [lookupWorkflowSet, hp]
  have hdc : (lookupWorkflowSet workflowMap acc.provider).deleteCluster =
      "" := by rw [hlook]; rfl
  have hdn : (lookupWorkflowSet workflowMap acc.provider).deleteNode =
      "" := by rw [hlook]; rfl
  refine ⟨hlook, ?_, ?_, ?_, ?_⟩
  · rw [hdc]; exact newTask_empty_kind _
  · rw [hdn]; exact newTask_empty_kind _
  · simp only [deleteKubeHandler, hK1, hK2, hdc, newTask_empty_kind,
      isNotFound]
    rfl
  · simp only [deleteNodeHandler, hN1, hm, hn, hN2, hdn,
      newTask_empty_kind, isNotFound]
    rfl

/-- C5 witness: an account on provider aws (absent from the workflow map)
against a cluster with master m1 and worker n1. -/
theorem missing_provider_mapping_404_witness :
    (deleteKubeHandler
      ⟨.ok ⟨"c1", "a", ["m1"], ["n1"]⟩, .ok ⟨"a", "aws"⟩, none, true,
        "id1"⟩).1 = .notFound ∧
    (deleteNodeHandler
      ⟨.ok ⟨"c1", "a", ["m1"], ["n1"]⟩, .ok ⟨"a", "aws"⟩, none, true,
        "id2"⟩ "n1").1 = .notFound := by
  have h := missing_provider_mapping_404
    ⟨.ok ⟨"c1", "a", ["m1"], ["n1"]⟩, .ok ⟨"a", "aws"⟩, none, true, "id1"⟩
    ⟨.ok ⟨"c1", "a", ["m1"], ["n1"]⟩, .ok ⟨"a", "aws"⟩, none, true, "id2"⟩
    ⟨"c1", "a", ["m1"], ["n1"]⟩ ⟨"a", "aws"⟩ "n1"
    rfl rfl rfl rfl (by decide) (by decide) (by decide)
  exact ⟨h.2.2.2.1, h.2.2.2.2⟩

/-- C6: once an `addNode` request reaches provisioning, a provisioner
error means no task-identity list is written — 404 when the error is
NotFound and 500 otherwise — and the 202 response carrying the created
task ids is written exactly when `ProvisionNodes` returns without
error. -/
theorem addNode_provision_error_gate (env : AddNodeEnv) (k : Kube)
    (h1 : env.getKube = .ok k) (h2 : env.decodeProfilesOk = true)
    (h3 : ∃ acc, env.getAccount = .ok acc)
    (h4 : k.masters.isEmpty = false)
    (h5 : env.fillCredsErr = none) :
    (∀ e, env.provision = .error e →
      addNodeHandler env =
        (if isNotFound e then HResp.notFound else HResp.internalError) ∧
      (∀ ts, addNodeHandler env ≠ .acceptedWithTasks ts)) ∧
    (∀ ts, env.provision = .ok ts →
      addNodeHandler env = .acceptedWithTasks ts) := by
  obtain ⟨acc, hacc⟩ := h3
  constructor
  · intro e he
    constructor
    · simp only [addNodeHandler, h1, h2, hacc, h4, h5, he,
        Bool.not_true, Bool.false_eq_true, if_false]
    · intro ts
      simp only [addNodeHandler, h1, h2, hacc, h4, h5, he,
        Bool.not_true, Bool.false_eq_true, if_false]
      cases e <;> simp [isNotFound]
  · intro ts hts
    simp only [addNodeHandler, h1, h2, hacc, h4, h5, hts,
      Bool.not_true, Bool.false_eq_true, if_false]

/-- C6 witness: a provisioner NotFound error ends an otherwise healthy
`addNode` request in a 404, with no task list written. -/
theorem addNode_provision_error_gate_witness :
    addNodeHandler
      ⟨.ok ⟨"c1", "a", ["m1"], []⟩, true, .ok ⟨"a", "digitalocean"⟩,
        none, .error .notFound⟩ = .notFound ∧
    ∀ ts, addNodeHandler
      ⟨.ok ⟨"c1", "a", ["m1"], []⟩, true, .ok ⟨"a", "digitalocean"⟩,
        none, .error .notFound⟩ ≠ .acceptedWithTasks ts := by
  have h := (addNode_provision_error_gate
    ⟨.ok ⟨"c1", "a", ["m1"], []⟩, true, .ok ⟨"a", "digitalocean"⟩,
      none, .error .notFound⟩
    ⟨"c1", "a", ["m1"], []⟩ rfl rfl ⟨⟨"a", "digitalocean"⟩, rfl⟩
    (by decide) rfl).1 .notFound rfl
  exact ⟨by simpa [isNotFound] using h.1, h.2⟩

/-- C8: a `deleteNode` request naming a node in the cluster's master set
is answered 405 Method Not Allowed with "delete master node not allowed",
before any task is created or any store write happens, so the effect list
is empty. -/
theorem deleteNode_master_not_allowed (env : DeleteNodeEnv) (k : Kube)
    (nodeName : String)
    (h1 : env.getKube = .ok k)
    (h2 : k.masters.contains nodeName = true) :
    deleteNodeHandler env nodeName =
      (.methodNotAllowed "delete master node not allowed", []) ∧
    (deleteNodeHandler env nodeName).1.statusCode = 405 := by
  have hresp : deleteNodeHandler env nodeName =
      (.methodNotAllowed "delete master node not allowed", []) := by
    simp only [deleteNodeHandler, h1, h2, if_true]
  exact ⟨hresp, by rw [hresp]; rfl⟩

/-- C8 witness: asking to delete master m1 of a concrete cluster. -/
theorem deleteNode_master_not_allowed_witness :
    deleteNodeHandler
      ⟨.ok ⟨"c1", "a", ["m1"], ["n1"]⟩, .ok ⟨"a", "digitalocean"⟩, none,
        true, "id1"⟩ "m1" =
      (.methodNotAllowed "delete master node not allowed", []) :=
  (deleteNode_master_not_allowed
    ⟨.ok ⟨"c1", "a", ["m1"], ["n1"]⟩, .ok ⟨"a", "digitalocean"⟩, none,
      true, "id1"⟩
    ⟨"c1", "a", ["m1"], ["n1"]⟩ "m1" rfl (by decide)).1

/-- C9: when `getKubeTasks` succeeds with zero matching tasks, `getTasks`
answers 404 Not Found and never encodes a task list (empty or not). -/
theorem getTasks_empty_list_404 (getAllRes : Except SgError (List Record))
    (id : String) (h : getKubeTasks getAllRes id = .ok []) :
    getTasksHandler getAllRes (some id) = .notFound ∧
    (getTasksHandler getAllRes (some id)).statusCode = 404 ∧
    ∀ ts, getTasksHandler getAllRes (some id) ≠ .okTasks ts := by
  have hresp : getTasksHandler getAllRes (some id) = .notFound := by
    simp [getTasksHandler, h]
  exact ⟨hresp, by rw [hresp]; rfl, fun ts hts => by
    rw [hresp] at hts; exact HResp.noConfusion hts⟩

/-- C9 witness: a store holding only a task of another cluster makes
`getTasks` for c1 answer 404. -/
theorem getTasks_empty_list_404_witness :
    getTasksHandler (.ok [Record.ok ⟨"t2", some ⟨"c2", "a", ""⟩⟩])
      (some "c1") = .notFound :=
  (getTasks_empty_list_404 (.ok [Record.ok ⟨"t2", some ⟨"c2", "a", ""⟩⟩])
    "c1" rfl).1

end SupergiantKube
